import Mathlib

/-!
Verification of the SOL forward-testing engine (forward_tester.py,
divergence_analyzer.py) against its natural-language specification.

Shallow embedding conventions:
- Python/pandas floats are modelled as exact rationals.  NaN cells produced
  by warm-up windows are modelled with Option (none = NaN); the final
  fillna(0) is folded into the field definitions.
- Timestamps (pandas Timestamp) are modelled as rational epoch seconds;
  Timestamp.hour is floor(t / 3600) mod 24 and Timedelta(days=n) is
  n * 86400 seconds.
- Each indicator column is modelled as an index function over the close
  series, mirroring the pandas column expression at every index.
- Rational division by zero yields 0 in Lean; the source guards every
  division the strategy consumes (rolling-average loss and previous
  Bollinger width are routed through replace(0, nan) before dividing),
  so the two semantics agree on those columns.  The remaining guarded
  corner cases are noted where they occur.
-/

namespace Sol

/-- A raw OHLC bar as consumed by ForwardTester: timestamp (epoch seconds),
close price and base-asset volume.  The open/high/low columns are never read
by the embedded components. -/
structure Bar where
  ts : ℚ
  close : ℚ
  volume : ℚ
deriving Repr, DecidableEq, Inhabited

/-- The close column as an index function (cells past the end are never
evaluated by the model, getD only totalises). -/
def closes (bars : List Bar) : ℕ → ℚ :=
  fun i => (bars.map Bar.close).getD i 0

/-- Exponential weighted mean with adjust=False: y 0 = x 0,
y (i+1) = a * x (i+1) + (1 - a) * y i.  For span s, a = 2 / (s + 1). -/
def ewmAt (a : ℚ) (x : ℕ → ℚ) : ℕ → ℚ
  | 0 => x 0
  | i + 1 => a * x (i + 1) + (1 - a) * ewmAt a x i

/-- MACD line: EMA span 12 minus EMA span 26 of close. -/
def macdAt (c : ℕ → ℚ) (i : ℕ) : ℚ :=
  ewmAt (2 / 13) c i - ewmAt (2 / 27) c i

/-- MACD signal line: EMA span 9 of the MACD line. -/
def macdSignalAt (c : ℕ → ℚ) (i : ℕ) : ℚ :=
  ewmAt (2 / 10) (macdAt c) i

/-- MACD histogram ("macd_diff" column). -/
def macdDiffAt (c : ℕ → ℚ) (i : ℕ) : ℚ :=
  macdAt c i - macdSignalAt c i

/-- Column macd_bullish: histogram > 0 while the previous histogram ≤ 0.
At index 0 the shifted histogram is NaN and the comparison NaN ≤ 0 is
False, so the flag is false. -/
def macdBullishAt (c : ℕ → ℚ) (i : ℕ) : Bool :=
  decide (0 < macdDiffAt c i) &&
    (match i with
     | 0 => false
     | j + 1 => decide (macdDiffAt c j ≤ 0))

/-- Column macd_bearish: histogram < 0 while the previous histogram ≥ 0. -/
def macdBearishAt (c : ℕ → ℚ) (i : ℕ) : Bool :=
  decide (macdDiffAt c i < 0) &&
    (match i with
     | 0 => false
     | j + 1 => decide (0 ≤ macdDiffAt c j))

/-- Rolling mean over a window of w cells (pandas rolling(window=w).mean()):
NaN until w observations exist, then the plain average of the last w. -/
def rollMeanAt (w : ℕ) (x : ℕ → ℚ) (i : ℕ) : Option ℚ :=
  if i + 1 < w then none
  else some ((((List.range w).map (fun k => x (i + 1 - w + k))).sum) / (w : ℚ))

/-- Rolling sample variance over w cells (pandas rolling(window=w).std()
squared, ddof = 1). -/
def rollVarAt (w : ℕ) (x : ℕ → ℚ) (i : ℕ) : Option ℚ :=
  match rollMeanAt w x i with
  | none => none
  | some m =>
    some ((((List.range w).map (fun k => (x (i + 1 - w + k) - m) ^ 2)).sum) / ((w : ℚ) - 1))

/-- Column delta = close.diff(): NaN at index 0. -/
def deltaAt (c : ℕ → ℚ) (i : ℕ) : Option ℚ :=
  match i with
  | 0 => none
  | j + 1 => some (c (j + 1) - c j)

/-- Column gain = delta.where(delta > 0, 0).  The NaN cell at index 0 fails
the comparison and is replaced by 0. -/
def gainAt (c : ℕ → ℚ) (i : ℕ) : ℚ :=
  match deltaAt c i with
  | none => 0
  | some d => if 0 < d then d else 0

/-- Column loss = -(delta.where(delta < 0, 0)). -/
def lossAt (c : ℕ → ℚ) (i : ℕ) : ℚ :=
  match deltaAt c i with
  | none => 0
  | some d => if d < 0 then -d else 0

/-- Fourteen-period rolling average gain. -/
def gainRollAt (c : ℕ → ℚ) (i : ℕ) : Option ℚ :=
  rollMeanAt 14 (gainAt c) i

/-- Fourteen-period rolling average loss. -/
def lossRollAt (c : ℕ → ℚ) (i : ℕ) : Option ℚ :=
  rollMeanAt 14 (lossAt c) i

/-- Column rs = gain / loss.replace(0, nan): NaN while either rolling mean
is warming up and NaN when the average loss is exactly 0. -/
def rsAt (c : ℕ → ℚ) (i : ℕ) : Option ℚ :=
  match gainRollAt c i, lossRollAt c i with
  | some g, some l => if l = 0 then none else some (g / l)
  | _, _ => none

/-- Column rsi = 100 - 100 / (1 + rs), with the final fillna(0) folded in:
every NaN cell (warm-up or zero average loss) becomes 0. -/
def rsiAt (c : ℕ → ℚ) (i : ℕ) : ℚ :=
  match rsAt c i with
  | none => 0
  | some r => 100 - 100 / (1 + r)

/-- Sign of the real number a * sqrt u for u ≥ 0, as an integer in
\x7b-1, 0, 1\x7d. -/
def sqrtSign (a u : ℚ) : ℤ :=
  if u = 0 then 0 else if 0 < a then 1 else if a < 0 then -1 else 0

/-- Exact decision of the real inequality a * sqrt u > b * sqrt v for
nonnegative radicands u and v, by comparing signs and then squaring.  This
lets the Bollinger-width comparison (the only place the source takes a
square root) stay inside exact rational arithmetic. -/
def sqrtMulGT (a u b v : ℚ) : Bool :=
  let sa := sqrtSign a u
  let sb := sqrtSign b v
  if sb < sa then true
  else if sa < sb then false
  else if sa = 1 then decide (b ^ 2 * v < a ^ 2 * u)
  else if sa = -1 then decide (a ^ 2 * u < b ^ 2 * v)
  else false

/-- Twenty-period sample variance of close (the square of the bb_std
column). -/
def bbVarAt (c : ℕ → ℚ) (i : ℕ) : Option ℚ :=
  rollVarAt 20 c i

/-- Rational coefficient of the Bollinger width: bb_width i is
(bb_high - bb_low) / close * 100 = (400 / close i) * sqrt (bbVar i). -/
def widthCoefAt (c : ℕ → ℚ) (i : ℕ) : ℚ :=
  400 / c i

/-- Column bb_expanding: (bb_width - bb_width_prev) / bb_width_prev.replace(0, nan)
* 100 > 0.5.  The flag is false whenever either width is NaN (warm-up,
indices below 20) or the previous width is 0, because float comparisons
with NaN are False.  Writing w_j for the real width coefficient times the
square root of the variance, the condition is w_i / w_p > 201/200, split on
the sign of w_p and decided exactly by sqrtMulGT.  The data model
guarantees close > 0; at close = 0 the float code would propagate inf/NaN
and this model keeps the flag false. -/
def bbExpandingAt (c : ℕ → ℚ) (i : ℕ) : Bool :=
  match i with
  | 0 => false
  | j + 1 =>
    match bbVarAt c (j + 1), bbVarAt c j with
    | some vi, some vp =>
      let ai := widthCoefAt c (j + 1)
      let ap := widthCoefAt c j
      if sqrtSign ap vp = 1 then sqrtMulGT ai vi ((201 / 200) * ap) vp
      else if sqrtSign ap vp = -1 then sqrtMulGT ((201 / 200) * ap) vp ai vi
      else false
    | _, _ => false

lemma sqrtSign_mem (a u : ℚ) : sqrtSign a u = 1 ∨ sqrtSign a u = 0 ∨ sqrtSign a u = -1 := by
  unfold sqrtSign
  split_ifs <;> simp

lemma sqrtSign_spec (a u : ℚ) (hu : 0 ≤ u) :
    (sqrtSign a u = 1 → 0 < (a : ℝ) * Real.sqrt (u : ℝ)) ∧
      (sqrtSign a u = 0 → (a : ℝ) * Real.sqrt (u : ℝ) = 0) ∧
      (sqrtSign a u = -1 → (a : ℝ) * Real.sqrt (u : ℝ) < 0) := by
  unfold sqrtSign
  split_ifs with h0 hpos hneg
  · refine ⟨by intro h; simp at h, ?_, by intro h; simp at h⟩
    intro _
    rw [h0]
    simp
  · have hsq : 0 < Real.sqrt (u : ℝ) := by
      apply Real.sqrt_pos.2
      exact_mod_cast lt_of_le_of_ne hu (Ne.symm h0)
    refine ⟨?_, by intro h; simp at h, by intro h; simp at h⟩
    intro _
    exact mul_pos (by exact_mod_cast hpos) hsq
  · have hsq : 0 < Real.sqrt (u : ℝ) := by
      apply Real.sqrt_pos.2
      exact_mod_cast lt_of_le_of_ne hu (Ne.symm h0)
    refine ⟨by intro h; simp at h, by intro h; simp at h, ?_⟩
    intro _
    exact mul_neg_of_neg_of_pos (by exact_mod_cast hneg) hsq
  · have ha : a = 0 := le_antisymm (not_lt.1 hpos) (not_lt.1 hneg)
    refine ⟨by intro h; simp at h, ?_, by intro h; simp at h⟩
    intro _
    rw [ha]
    simp



theorem sqrtMulGT_iff (a u b v : ℚ) (hu : 0 ≤ u) (hv : 0 ≤ v) :
    sqrtMulGT a u b v = true ↔
      (b : ℝ) * Real.sqrt (v : ℝ) < (a : ℝ) * Real.sqrt (u : ℝ) := by
  obtain ⟨ha1, ha0, han⟩ := sqrtSign_spec a u hu
  obtain ⟨hb1, hb0, hbn⟩ := sqrtSign_spec b v hv
  set x := (a : ℝ) * Real.sqrt (u : ℝ) with hx
  set y := (b : ℝ) * Real.sqrt (v : ℝ) with hy
  have hxsq : x ^ 2 = ((a ^ 2 * u : ℚ) : ℝ) := by
    rw [hx, mul_pow, Real.sq_sqrt (by exact_mod_cast hu)]
    push_cast
    ring
  have hysq : y ^ 2 = ((b ^ 2 * v : ℚ) : ℝ) := by
    rw [hy, mul_pow, Real.sq_sqrt (by exact_mod_cast hv)]
    push_cast
    ring
  unfold sqrtMulGT
  rcases sqrtSign_mem a u with hsa | hsa | hsa <;>
    rcases sqrtSign_mem b v with hsb | hsb | hsb <;>
    rw [hsa, hsb] <;> norm_num
  · -- sa = sb = 1: both sides positive, squares decide
    have hx0 := ha1 hsa
    have hy0 := hb1 hsb
    constructor
    · intro h
      have h2 : y ^ 2 < x ^ 2 := by
        rw [hxsq, hysq]
        exact_mod_cast h
      exact lt_of_pow_lt_pow_left₀ 2 (le_of_lt hx0) h2
    · intro h
      have h2 : y ^ 2 < x ^ 2 := pow_lt_pow_left₀ h (le_of_lt hy0) two_ne_zero
      rw [hxsq, hysq] at h2
      exact_mod_cast h2
  · -- sa = 1, sb = 0
    rw [hb0 hsb]
    exact ha1 hsa
  · -- sa = 1, sb = -1
    exact lt_trans (hbn hsb) (ha1 hsa)
  · -- sa = 0, sb = 1
    rw [ha0 hsa]
    exact le_of_lt (hb1 hsb)
  · -- sa = 0, sb = 0
    rw [ha0 hsa, hb0 hsb]
  · -- sa = 0, sb = -1
    rw [ha0 hsa]
    exact hbn hsb
  · -- sa = -1, sb = 1
    exact le_of_lt (lt_trans (han hsa) (hb1 hsb))
  · -- sa = -1, sb = 0
    rw [hb0 hsb]
    exact le_of_lt (han hsa)
  · -- sa = sb = -1: both sides negative, squares decide with order flipped
    have hx0 := han hsa
    have hy0 := hbn hsb
    constructor
    · intro h
      have h2 : (-x) ^ 2 < (-y) ^ 2 := by
        rw [neg_sq, neg_sq, hxsq, hysq]
        exact_mod_cast h
      have h3 : -x < -y :=
        lt_of_pow_lt_pow_left₀ 2 (le_of_lt (neg_pos.2 hy0)) h2
      exact neg_lt_neg_iff.1 h3
    · intro h
      have h3 : -x < -y := neg_lt_neg h
      have h2 : (-x) ^ 2 < (-y) ^ 2 :=
        pow_lt_pow_left₀ h3 (le_of_lt (neg_pos.2 hx0)) two_ne_zero
      rw [neg_sq, neg_sq, hxsq, hysq] at h2
      exact_mod_cast h2



lemma rollVarAt_nonneg (w : ℕ) (x : ℕ → ℚ) (i : ℕ) (v : ℚ)
    (h : rollVarAt w x i = some v) : 0 ≤ v := by
  unfold rollVarAt at h
  rcases hm : rollMeanAt w x i with _ | m
  · rw [hm] at h
    exact absurd h (by simp)
  · rw [hm] at h
    simp only [Option.some.injEq] at h
    rcases Nat.eq_zero_or_pos w with hw0 | hw1
    · subst hw0
      simp at h
      rw [← h]
    · rw [← h]
      apply div_nonneg
      · apply List.sum_nonneg
        intro y hy
        obtain ⟨k, -, hk⟩ := List.mem_map.1 hy
        rw [← hk]
        exact sq_nonneg _
      · have : (1 : ℚ) ≤ (w : ℚ) := by exact_mod_cast hw1
        linarith



theorem bbExpandingAt_iff (c : ℕ → ℚ) (j : ℕ) (vi vp : ℚ)
    (hvi : bbVarAt c (j + 1) = some vi) (hvp : bbVarAt c j = some vp) :
    bbExpandingAt c (j + 1) = true ↔
      1 / 2 <
        (((400 / c (j + 1) : ℚ) : ℝ) * Real.sqrt (vi : ℝ) -
            ((400 / c j : ℚ) : ℝ) * Real.sqrt (vp : ℝ)) /
          (((400 / c j : ℚ) : ℝ) * Real.sqrt (vp : ℝ)) * 100 := by
  have hvi0 : 0 ≤ vi := rollVarAt_nonneg 20 c (j + 1) vi hvi
  have hvp0 : 0 ≤ vp := rollVarAt_nonneg 20 c j vp hvp
  obtain ⟨hp1, hp0, hpn⟩ := sqrtSign_spec (400 / c j) vp hvp0
  set wi : ℝ := ((400 / c (j + 1) : ℚ) : ℝ) * Real.sqrt (vi : ℝ) with hwi
  set wp : ℝ := ((400 / c j : ℚ) : ℝ) * Real.sqrt (vp : ℝ) with hwp
  have hmain : bbExpandingAt c (j + 1) =
      (if sqrtSign (widthCoefAt c j) vp = 1 then
        sqrtMulGT (widthCoefAt c (j + 1)) vi ((201 / 200) * widthCoefAt c j) vp
      else if sqrtSign (widthCoefAt c j) vp = -1 then
        sqrtMulGT ((201 / 200) * widthCoefAt c j) vp (widthCoefAt c (j + 1)) vi
      else false) := by
    have h0 : bbExpandingAt c (j + 1) =
        (match bbVarAt c (j + 1), bbVarAt c j with
         | some vi, some vp =>
           if sqrtSign (widthCoefAt c j) vp = 1 then
             sqrtMulGT (widthCoefAt c (j + 1)) vi ((201 / 200) * widthCoefAt c j) vp
           else if sqrtSign (widthCoefAt c j) vp = -1 then
             sqrtMulGT ((201 / 200) * widthCoefAt c j) vp (widthCoefAt c (j + 1)) vi
           else false
         | _, _ => false) := rfl
    rw [h0, hvi, hvp]
  rw [hmain]
  unfold widthCoefAt
  have hcast : (((201 / 200 * (400 / c j) : ℚ)) : ℝ) * Real.sqrt ((vp : ℚ) : ℝ) =
      (201 / 200 : ℝ) * wp := by
    rw [hwp]
    push_cast
    ring
  rcases sqrtSign_mem (400 / c j) vp with hs | hs | hs
  · -- previous width positive
    have hwpos : 0 < wp := hp1 hs
    rw [if_pos hs, sqrtMulGT_iff _ _ _ _ hvi0 hvp0, hcast, ← hwi]
    rw [show (wi - wp) / wp * 100 = (wi - wp) * 100 / wp from div_mul_eq_mul_div _ _ _]
    rw [lt_div_iff₀ hwpos]
    constructor <;> intro h <;> linarith
  · -- previous width zero: the replace(0, nan) branch, flag is false
    have hwpz : wp = 0 := hp0 hs
    have hs1 : ¬ sqrtSign (400 / c j) vp = 1 := by rw [hs]; norm_num
    have hsn : ¬ sqrtSign (400 / c j) vp = -1 := by rw [hs]; norm_num
    rw [if_neg hs1, if_neg hsn]
    refine iff_of_false (by simp) ?_
    rw [hwpz]
    norm_num
  · -- previous width negative
    have hwneg : wp < 0 := hpn hs
    have hs1 : ¬ sqrtSign (400 / c j) vp = 1 := by rw [hs]; norm_num
    rw [if_neg hs1, if_pos hs, sqrtMulGT_iff _ _ _ _ hvp0 hvi0, hcast, ← hwi]
    rw [show (wi - wp) / wp * 100 = (wi - wp) * 100 / wp from div_mul_eq_mul_div _ _ _]
    rw [lt_div_iff_of_neg hwneg]
    constructor <;> intro h <;> linarith

/-- A bar enriched with the derived indicator columns that the simulator
and the claims consume (macd/signal/histogram are folded into the two
crossover flags; bb_mid/high/low only feed bb_expanding). -/
structure EnrichedBar where
  ts : ℚ
  close : ℚ
  volume : ℚ
  macd_bullish : Bool
  macd_bearish : Bool
  ema6 : ℚ
  ema7 : ℚ
  ema21 : ℚ
  bb_expanding : Bool
  rsi : ℚ
  volume_usdt : ℚ
deriving Repr, DecidableEq, Inhabited

/-- The enriched row at position i of the frame (all derived columns of
bar b at index i over the close series c).  volume_usdt = volume * close;
the EMAs use spans 6, 7 and 21. -/
def enrichRow (c : ℕ → ℚ) (i : ℕ) (b : Bar) : EnrichedBar :=
  { ts := b.ts
    close := b.close
    volume := b.volume
    macd_bullish := macdBullishAt c i
    macd_bearish := macdBearishAt c i
    ema6 := ewmAt (2 / 7) c i
    ema7 := ewmAt (2 / 8) c i
    ema21 := ewmAt (2 / 22) c i
    bb_expanding := bbExpandingAt c i
    rsi := rsiAt c i
    volume_usdt := b.volume * b.close }

/-- ForwardTester.calculate_indicators: assigns the derived columns to a
copy of the frame and returns it, one enriched bar per input bar in the
same order. -/
def calculate_indicators (bars : List Bar) : List EnrichedBar :=
  bars.enum.map (fun p => enrichRow (closes bars) p.1 p.2)

theorem calculate_indicators_length (bars : List Bar) :
    (calculate_indicators bars).length = bars.length := by
  simp [calculate_indicators]

theorem calculate_indicators_ts (bars : List Bar) :
    (calculate_indicators bars).map EnrichedBar.ts = bars.map Bar.ts := by
  have h : (calculate_indicators bars).map EnrichedBar.ts
      = bars.enum.map (fun p => p.2.ts) := by
    simp [calculate_indicators, enrichRow]
  rw [h]
  have h2 : (fun p : ℕ × Bar => p.2.ts) = Bar.ts ∘ Prod.snd := rfl
  rw [h2, ← List.map_map, List.enum_map_snd]

/-! ## Strategy Simulator (ForwardTester.run) -/

/-- ForwardTester configuration after __init__: the stop-loss and
take-profit constructor arguments are percentages and are divided by 100. -/
structure Config where
  position_size : ℚ
  fees : ℚ
  stop_loss_pct : ℚ
  take_profit_pct : ℚ
  volume_min : ℚ
  trading_hours : List (ℤ × ℤ)
deriving Repr, DecidableEq

/-- ForwardTester.__init__: trading_hours defaults to [[7,10],[12,16]] when
the argument is None or an empty list (Python "or" replaces any falsy
value). -/
def mkForwardTester (position_size fees stop_loss take_profit volume_min : ℚ)
    (trading_hours : Option (List (ℤ × ℤ))) : Config :=
  { position_size := position_size
    fees := fees
    stop_loss_pct := stop_loss / 100
    take_profit_pct := take_profit / 100
    volume_min := volume_min
    trading_hours :=
      match trading_hours with
      | none => [(7, 10), (12, 16)]
      | some [] => [(7, 10), (12, 16)]
      | some l => l }

/-- The constructor defaults (position_size=40.0, fees=0.0015,
stop_loss=0.8, take_profit=1.5, volume_min=75000, trading_hours=None). -/
def defaultConfig : Config :=
  mkForwardTester 40 (15 / 10000) (8 / 10) (15 / 10) 75000 none

/-- Hour-of-day of an epoch-seconds timestamp (pandas Timestamp.hour for a
UTC/naive series). -/
def hourOf (t : ℚ) : ℤ :=
  (Int.floor (t / 3600)) % 24

/-- ForwardTester.is_trading_hour: any(start <= hour < end) over the
configured half-open hour windows. -/
def is_trading_hour (cfg : Config) (t : ℚ) : Bool :=
  cfg.trading_hours.any (fun p => decide (p.1 ≤ hourOf t) && decide (hourOf t < p.2))

inductive Side where
  | LONG
  | SHORT
deriving Repr, DecidableEq

inductive ExitReason where
  | STOP_LOSS
  | TAKE_PROFIT
deriving Repr, DecidableEq

/-- The open-position state (position, entry_price, entry_time locals of
run). -/
structure Position where
  side : Side
  entry_price : ℚ
  entry_time : ℚ
deriving Repr, DecidableEq

/-- One element of self.trades (entry_time/exit_time keep the raw
timestamps whose isoformat strings the source stores; isoformat preserves
ordering). -/
structure Trade where
  side : Side
  entry : ℚ
  exit : ℚ
  pnl_usdt : ℚ
  pnl_pct : ℚ
  reason : ExitReason
  entry_time : ℚ
  exit_time : ℚ
  duration_min : ℚ
deriving Repr, DecidableEq

/-- The mutable loop state of run: position, capital, self.trades and
self.equity_curve (fresh per run, per the one-run-per-instance ownership
rule). -/
structure SimState where
  position : Option Position
  capital : ℚ
  trades : List Trade
  equity_curve : List (ℚ × ℚ)
deriving Repr, DecidableEq

/-- The exit block of run (lines 138-162): stop-loss and take-profit
trigger prices from the fee-adjusted entry, STOP_LOSS branch checked first,
exit price fee-adjusted in the closing direction.  Returns the exit price
and reason when the position closes on this bar. -/
def exitDecision (cfg : Config) (side : Side) (entry price : ℚ) : Option (ℚ × ExitReason) :=
  match side with
  | Side.LONG =>
    if price ≤ entry * (1 - cfg.stop_loss_pct) then
      some (price * (1 - cfg.fees), ExitReason.STOP_LOSS)
    else if entry * (1 + cfg.take_profit_pct) ≤ price then
      some (price * (1 - cfg.fees), ExitReason.TAKE_PROFIT)
    else none
  | Side.SHORT =>
    if entry * (1 + cfg.stop_loss_pct) ≤ price then
      some (price * (1 + cfg.fees), ExitReason.STOP_LOSS)
    else if price ≤ entry * (1 - cfg.take_profit_pct) then
      some (price * (1 + cfg.fees), ExitReason.TAKE_PROFIT)
    else none

/-- PnL in quote currency of a closing trade. -/
def pnlUsdt (cfg : Config) (pos : Position) (exit_price : ℚ) : ℚ :=
  match pos.side with
  | Side.LONG => (exit_price - pos.entry_price) * cfg.position_size
  | Side.SHORT => (pos.entry_price - exit_price) * cfg.position_size

/-- The trade record appended to self.trades on close. -/
def mkTrade (cfg : Config) (pos : Position) (b : EnrichedBar)
    (exit_price : ℚ) (reason : ExitReason) : Trade :=
  { side := pos.side
    entry := pos.entry_price
    exit := exit_price
    pnl_usdt := pnlUsdt cfg pos exit_price
    pnl_pct := pnlUsdt cfg pos exit_price / (pos.entry_price * cfg.position_size) * 100
    reason := reason
    entry_time := pos.entry_time
    exit_time := b.ts
    duration_min := (b.ts - pos.entry_time) / 60 }

/-- The three session/volume/volatility filters at the top of the loop
body; a bar failing any of them is skipped by continue before the entry
and exit logic. -/
def passesFilters (cfg : Config) (b : EnrichedBar) : Bool :=
  is_trading_hour cfg b.ts && !(decide (b.volume_usdt < cfg.volume_min)) && b.bb_expanding

/-- One iteration of the run loop on bar b (the body for i of range(30,
len(df))): the three filters, then the entry block (which continues past
the exit check on the entry bar), then the exit block. -/
def step (cfg : Config) (st : SimState) (b : EnrichedBar) : SimState :=
  if is_trading_hour cfg b.ts = false then st
  else if b.volume_usdt < cfg.volume_min then st
  else if b.bb_expanding = false then st
  else
    match st.position with
    | none =>
      if b.macd_bullish && decide (b.ema6 < b.close) && decide (b.ema21 < b.ema7) then
        { st with position := some ⟨Side.LONG, b.close * (1 + cfg.fees), b.ts⟩ }
      else if b.macd_bearish && decide (b.close < b.ema6) && decide (b.ema7 < b.ema21) then
        { st with position := some ⟨Side.SHORT, b.close * (1 - cfg.fees), b.ts⟩ }
      else st
    | some pos =>
      match exitDecision cfg pos.side pos.entry_price b.close with
      | none => st
      | some (exit_price, reason) =>
        { position := none
          capital := st.capital + pnlUsdt cfg pos exit_price
          trades := st.trades ++ [mkTrade cfg pos b exit_price reason]
          equity_curve := st.equity_curve ++ [(b.ts, st.capital + pnlUsdt cfg pos exit_price)] }

/-- Maximum timestamp of the frame (guarded by a nonemptiness check at
every use site, since it is only taken when len(df) > 100). -/
def maxTsOf (df : List Bar) : ℚ :=
  ((df.map Bar.ts).max?).getD 0

/-- Lines 79-81 of run: if days_to_test is truthy and len(df) > 100, keep
only the bars with timestamp at or after max - days_to_test days
(Timedelta(days=n) = n * 86400 seconds). -/
def dayFilter (df : List Bar) (days_to_test : Option ℕ) : List Bar :=
  match days_to_test with
  | none => df
  | some n =>
    if n ≠ 0 ∧ 100 < df.length then
      df.filter (fun b => decide (maxTsOf df - (n : ℚ) * 86400 ≤ b.ts))
    else df

/-- Initial loop state: capital = position_size * first close, equity curve
seeded with the first bar (undefined placeholder on an empty frame, where
the source would already have raised). -/
def initState (cfg : Config) (enr : List EnrichedBar) : SimState :=
  match enr with
  | [] => ⟨none, 0, [], []⟩
  | b0 :: _ =>
    let capital0 := cfg.position_size * b0.close
    ⟨none, capital0, [], [(b0.ts, capital0)]⟩

/-- Final loop state of a run: fold the per-bar body over the enriched
bars from index 30 on. -/
def finalState (cfg : Config) (df : List Bar) (days_to_test : Option ℕ) : SimState :=
  let enr := calculate_indicators (dayFilter df days_to_test)
  (enr.drop 30).foldl (step cfg) (initState cfg enr)

/-- The trades produced by a run. -/
def runTrades (cfg : Config) (df : List Bar) (days_to_test : Option ℕ) : List Trade :=
  (finalState cfg df days_to_test).trades

/-! ## Report Generator (ForwardTester.generate_report) -/

/-- The winning partition: trades with pnl_pct > 0. -/
def winsOf (trades : List Trade) : List Trade :=
  trades.filter (fun t => decide (0 < t.pnl_pct))

/-- The losing partition: trades with pnl_pct <= 0. -/
def lossesOf (trades : List Trade) : List Trade :=
  trades.filter (fun t => decide (t.pnl_pct ≤ 0))

/-- Sum of pnl_pct over a trade list. -/
def pnlSum (trades : List Trade) : ℚ :=
  (trades.map Trade.pnl_pct).sum

/-- Mean of pnl_pct over a trade list (evaluated only on nonempty lists in
the source). -/
def pnlMean (trades : List Trade) : ℚ :=
  pnlSum trades / (trades.length : ℚ)

/-- Running maximum of the first j+1 equity values
(equity.expanding().max()). -/
def runningMax (es : List ℚ) (j : ℕ) : ℚ :=
  match es.take (j + 1) with
  | [] => 0
  | x :: xs => xs.foldl max x

/-- Minimum of the drawdown series (equity - running max) / running max *
100; the equity list is nonempty on every reachable call (it is seeded
with the initial capital point), so minimum? is always some. -/
def drawdownMin (es : List ℚ) : ℚ :=
  ((((List.range es.length).map
      (fun j => (es.getD j 0 - runningMax es j) / runningMax es j * 100))).min?).getD 0

/-- The statistics dictionary returned for a run with at least one trade. -/
structure ReportStats where
  trades : ℕ
  wins : ℕ
  losses : ℕ
  win_rate : ℚ
  avg_win : ℚ
  avg_loss : ℚ
  profit_factor : ℚ
  expectancy : ℚ
  total_return_pct : ℚ
  max_drawdown_pct : ℚ
  final_capital : ℚ
  initial_capital : ℚ
  trades_df : List Trade
  equity_curve : List (ℚ × ℚ)
deriving Repr, DecidableEq

/-- The value returned by generate_report: either the dict containing only
the key error (the zero-trade case) or the statistics dict. -/
inductive Report where
  | error (msg : String)
  | stats (s : ReportStats)
deriving Repr, DecidableEq

/-- True exactly on the error-keyed dict shape. -/
def Report.isError : Report → Bool
  | Report.error _ => true
  | Report.stats _ => false

/-- Projection to the statistics of a with-trades report. -/
def Report.getStats : Report → Option ReportStats
  | Report.error _ => none
  | Report.stats s => some s

/-- ForwardTester.generate_report.  profit_factor divides the winning sum
by the losing sum only when at least one losing trade exists; in the
(reachable only with every losing pnl_pct exactly 0) corner where the
losing sum is 0, Lean rational division yields 0 where numpy floats
produce inf/nan.  All claims below stay away from that corner. -/
def generate_report (cfg : Config) (trades : List Trade)
    (equity : List (ℚ × ℚ)) (final_capital initial_price : ℚ) : Report :=
  if trades.isEmpty then Report.error "Nenhum trade executado"
  else
    let wins := (winsOf trades).length
    let losses := (lossesOf trades).length
    let n := trades.length
    Report.stats
      { trades := n
        wins := wins
        losses := losses
        win_rate := if 0 < n then (wins : ℚ) / (n : ℚ) * 100 else 0
        avg_win := if 0 < wins then pnlMean (winsOf trades) else 0
        avg_loss := if 0 < losses then pnlMean (lossesOf trades) else 0
        profit_factor :=
          if 0 < losses then |pnlSum (winsOf trades) / pnlSum (lossesOf trades)| else 0
        expectancy := pnlMean trades
        total_return_pct :=
          (final_capital - cfg.position_size * initial_price) /
            (cfg.position_size * initial_price) * 100
        max_drawdown_pct := drawdownMin (equity.map Prod.snd)
        final_capital := final_capital
        initial_capital := cfg.position_size * initial_price
        trades_df := trades
        equity_curve := equity }

/-- Outcome of ForwardTester.run: either the Python IndexError raised by
iloc[0] on an empty (post-filter) frame, or the returned report. -/
inductive RunResult where
  | indexError
  | report (r : Report)
deriving Repr, DecidableEq

/-- ForwardTester.run: day-window restriction, indicator enrichment,
initial capital from the first close, the bar loop from index 30, and the
final generate_report call. -/
def run (cfg : Config) (df : List Bar) (days_to_test : Option ℕ) : RunResult :=
  match (calculate_indicators (dayFilter df days_to_test)).head? with
  | none => RunResult.indexError
  | some b0 =>
    let stF := finalState cfg df days_to_test
    RunResult.report (generate_report cfg stF.trades stF.equity_curve stF.capital b0.close)

/-! ## Divergence correlation pass (DivergenceAnalyzer.analyze, lines
133-146) -/

/-- The trade_result annotation: WIN if trade pnl_pct > 0 else LOSS. -/
def trade_result (t : Trade) : String :=
  if 0 < t.pnl_pct then "WIN" else "LOSS"

/-- The per-event correlation loop: the first trade (in frame order) whose
[entry_time, exit_time] interval contains the event timestamp supplies the
impacted_trade/trade_side/trade_result annotations; no match leaves the
event unannotated. -/
def correlate (div_time : ℚ) (trades_df : List Trade) : Option (Side × String) :=
  match trades_df.find? (fun t =>
      decide (t.entry_time ≤ div_time) && decide (div_time ≤ t.exit_time)) with
  | some t => some (t.side, trade_result t)
  | none => none

/-! ## Structural lemmas about the loop body -/

/-- Every loop iteration either leaves the state unchanged, opens a
position stamped with the current bar's timestamp, or closes the open
position on a bar that passed all three filters, appending exactly one
trade whose exit_time is the current bar's timestamp. -/
lemma step_shape (cfg : Config) (st : SimState) (b : EnrichedBar) :
    step cfg st b = st
    ∨ (st.position = none ∧
        ∃ sd ep, step cfg st b = { st with position := some ⟨sd, ep, b.ts⟩ })
    ∨ (∃ pos ep r, st.position = some pos ∧ passesFilters cfg b = true ∧
        step cfg st b =
          { position := none
            capital := st.capital + pnlUsdt cfg pos ep
            trades := st.trades ++ [mkTrade cfg pos b ep r]
            equity_curve := st.equity_curve ++ [(b.ts, st.capital + pnlUsdt cfg pos ep)] }) := by
  unfold step
  by_cases h1 : is_trading_hour cfg b.ts = false
  · rw [if_pos h1]; exact Or.inl rfl
  · rw [if_neg h1]
    by_cases h2 : b.volume_usdt < cfg.volume_min
    · rw [if_pos h2]; exact Or.inl rfl
    · rw [if_neg h2]
      by_cases h3 : b.bb_expanding = false
      · rw [if_pos h3]; exact Or.inl rfl
      · rw [if_neg h3]
        have hpf : passesFilters cfg b = true := by
          have hh1 : is_trading_hour cfg b.ts = true := by
            revert h1; cases is_trading_hour cfg b.ts <;> simp
          have hh3 : b.bb_expanding = true := by
            revert h3; cases b.bb_expanding <;> simp
          simp [passesFilters, hh1, hh3, h2]
        rcases hpos : st.position with _ | pos
        · by_cases hl : (b.macd_bullish && decide (b.ema6 < b.close) && decide (b.ema21 < b.ema7)) = true
          · refine Or.inr (Or.inl ⟨rfl, Side.LONG, b.close * (1 + cfg.fees), ?_⟩)
            simp only [hl, if_true]
          · by_cases hs : (b.macd_bearish && decide (b.close < b.ema6) && decide (b.ema7 < b.ema21)) = true
            · refine Or.inr (Or.inl ⟨rfl, Side.SHORT, b.close * (1 - cfg.fees), ?_⟩)
              simp only [hl, hs, Bool.false_eq_true, if_true, if_false]
            · refine Or.inl ?_
              simp only [hl, hs, Bool.false_eq_true, if_false]
        · rcases hex : exitDecision cfg pos.side pos.entry_price b.close with _ | ⟨ep, r⟩
          · refine Or.inl ?_
            simp only [hex]
          · refine Or.inr (Or.inr ⟨pos, ep, r, rfl, hpf, ?_⟩)
            simp only [hex]

/-- Folding the loop body can only append trades; every new trade closes
on a bar from the folded list that passed all three filters, and carries
that bar's timestamp as its exit_time. -/
lemma foldl_trades_from (cfg : Config) :
    ∀ (bs : List EnrichedBar) (st : SimState) (t : Trade),
      t ∈ (bs.foldl (step cfg) st).trades →
      t ∈ st.trades ∨ ∃ b ∈ bs, passesFilters cfg b = true ∧ t.exit_time = b.ts := by
  intro bs
  induction bs with
  | nil => intro st t ht; exact Or.inl ht
  | cons b bs ih =>
    intro st t ht
    rcases ih (step cfg st b) t ht with hmem | ⟨b', hb', hpf', hts'⟩
    · rcases step_shape cfg st b with hid | ⟨_, sd, ep, heq⟩ | ⟨pos, ep, r, _, hpf, heq⟩
      · rw [hid] at hmem
        exact Or.inl hmem
      · rw [heq] at hmem
        exact Or.inl hmem
      · rw [heq] at hmem
        rcases List.mem_append.1 hmem with hold | hnew
        · exact Or.inl hold
        · refine Or.inr ⟨b, List.mem_cons_self b bs, hpf, ?_⟩
          rcases List.mem_singleton.1 hnew with rfl
          rfl
    · exact Or.inr ⟨b', List.mem_cons_of_mem b hb', hpf', hts'⟩

/-- Invariant for the exit-after-entry ordering: if all recorded trades
close after they open and the open position (if any) was opened strictly
before every remaining bar, then after folding the remaining bars all
recorded trades still close after they open.  Needs the folded bars to be
strictly ascending in timestamp. -/
lemma foldl_exit_after_entry (cfg : Config) :
    ∀ (bs : List EnrichedBar) (st : SimState),
      bs.Pairwise (fun a b => a.ts < b.ts) →
      (∀ t ∈ st.trades, t.entry_time < t.exit_time) →
      (∀ p, st.position = some p → ∀ b ∈ bs, p.entry_time < b.ts) →
      ∀ t ∈ (bs.foldl (step cfg) st).trades, t.entry_time < t.exit_time := by
  intro bs
  induction bs with
  | nil => intro st _ hok _ t ht; exact hok t ht
  | cons b bs ih =>
    intro st hpw hok hposbd t ht
    have hpw' := (List.pairwise_cons.1 hpw).2
    have hhd := (List.pairwise_cons.1 hpw).1
    refine ih (step cfg st b) hpw' ?_ ?_ t ht
    · rcases step_shape cfg st b with hid | ⟨_, sd, ep, heq⟩ | ⟨pos, ep, r, hpos, _, heq⟩
      · rw [hid]; exact hok
      · rw [heq]; exact hok
      · rw [heq]
        intro u hu
        rcases List.mem_append.1 hu with hold | hnew
        · exact hok u hold
        · rcases List.mem_singleton.1 hnew with rfl
          have := hposbd pos hpos b (List.mem_cons_self b bs)
          simpa [mkTrade] using this
    · rcases step_shape cfg st b with hid | ⟨hnone, sd, ep, heq⟩ | ⟨pos, ep, r, hpos, _, heq⟩
      · rw [hid]
        intro p hp b' hb'
        exact hposbd p hp b' (List.mem_cons_of_mem b hb')
      · rw [heq]
        intro p hp b' hb'
        simp only [Option.some.injEq] at hp
        rw [← hp]
        exact hhd b' hb'
      · rw [heq]
        intro p hp
        simp at hp

/-! ## Claims -/

/-- Decomposition of the three loop filters. -/
lemma passesFilters_iff (cfg : Config) (b : EnrichedBar) :
    passesFilters cfg b = true ↔
      is_trading_hour cfg b.ts = true ∧
        ¬ (b.volume_usdt < cfg.volume_min) ∧ b.bb_expanding = true := by
  simp [passesFilters, and_assoc]

/-- The stop-loss trigger condition of an open position at the current
close (price at or beyond the stop price, equality included). -/
def slTriggered (cfg : Config) (pos : Position) (price : ℚ) : Prop :=
  match pos.side with
  | Side.LONG => price ≤ pos.entry_price * (1 - cfg.stop_loss_pct)
  | Side.SHORT => pos.entry_price * (1 + cfg.stop_loss_pct) ≤ price

/-- The take-profit trigger condition of an open position at the current
close. -/
def tpTriggered (cfg : Config) (pos : Position) (price : ℚ) : Prop :=
  match pos.side with
  | Side.LONG => pos.entry_price * (1 + cfg.take_profit_pct) ≤ price
  | Side.SHORT => price ≤ pos.entry_price * (1 - cfg.take_profit_pct)

/-- When the stop-loss condition holds, the exit block fires with reason
STOP_LOSS whatever the take-profit comparison would say, because the
STOP_LOSS branch is tested first. -/
lemma exitDecision_stop (cfg : Config) (pos : Position) (price : ℚ)
    (hsl : slTriggered cfg pos price) :
    ∃ ep, exitDecision cfg pos.side pos.entry_price price = some (ep, ExitReason.STOP_LOSS) := by
  unfold slTriggered at hsl
  unfold exitDecision
  cases hside : pos.side with
  | LONG =>
    rw [hside] at hsl
    exact ⟨price * (1 - cfg.fees), by simp only [if_pos hsl]⟩
  | SHORT =>
    rw [hside] at hsl
    exact ⟨price * (1 + cfg.fees), by simp only [if_pos hsl]⟩

/-- C6: on a bar that the open position's exit logic evaluates (all three
filters pass) and on which both the stop-loss and the take-profit trigger
conditions hold (price exactly at the stop price included), the position
closes on that bar and the recorded exit reason is STOP_LOSS, never
TAKE_PROFIT. -/
theorem stop_loss_priority_over_take_profit (cfg : Config) (st : SimState)
    (b : EnrichedBar) (pos : Position)
    (hpos : st.position = some pos)
    (hpf : passesFilters cfg b = true)
    (hsl : slTriggered cfg pos b.close)
    (_htp : tpTriggered cfg pos b.close) :
    (step cfg st b).position = none ∧
      ∃ ep, (step cfg st b).trades = st.trades ++ [mkTrade cfg pos b ep ExitReason.STOP_LOSS] := by
  obtain ⟨h1, h2, h3⟩ := (passesFilters_iff cfg b).1 hpf
  obtain ⟨ep, hex⟩ := exitDecision_stop cfg pos b.close hsl
  have hstep : step cfg st b =
      { position := none
        capital := st.capital + pnlUsdt cfg pos ep
        trades := st.trades ++ [mkTrade cfg pos b ep ExitReason.STOP_LOSS]
        equity_curve := st.equity_curve ++ [(b.ts, st.capital + pnlUsdt cfg pos ep)] } := by
    unfold step
    rw [if_neg (by simp [h1]), if_neg h2, if_neg (by simp [h3]), hpos]
    simp only [hex]
  rw [hstep]
  exact ⟨rfl, ep, rfl⟩

/-- C6 witness: a LONG position with zero stop-loss and take-profit
distances so that a bar at the entry price triggers both conditions at
once; the step closes it with reason STOP_LOSS. -/
def cfgC6 : Config := mkForwardTester 40 (1 / 1000) 0 0 0 (some [(0, 24)])

def posC6 : Position := ⟨Side.LONG, 100, 0⟩

def barC6 : EnrichedBar :=
  { ts := 60, close := 100, volume := 1, macd_bullish := false, macd_bearish := false
    ema6 := 0, ema7 := 0, ema21 := 0, bb_expanding := true, rsi := 0, volume_usdt := 100 }

def stC6 : SimState := ⟨some posC6, 4000, [], [(0, 4000)]⟩

theorem stop_loss_priority_over_take_profit_witness :
    (stC6.position = some posC6 ∧ passesFilters cfgC6 barC6 = true ∧
        slTriggered cfgC6 posC6 barC6.close ∧ tpTriggered cfgC6 posC6 barC6.close) ∧
      ((step cfgC6 stC6 barC6).position = none ∧
        ∃ ep, (step cfgC6 stC6 barC6).trades =
          stC6.trades ++ [mkTrade cfgC6 posC6 barC6 ep ExitReason.STOP_LOSS]) := by
  have hpos : stC6.position = some posC6 := rfl
  have hpf : passesFilters cfgC6 barC6 = true := by
    norm_num [passesFilters, is_trading_hour, hourOf, cfgC6, mkForwardTester, barC6, List.any_cons]
  have hsl : slTriggered cfgC6 posC6 barC6.close := by
    norm_num [slTriggered, posC6, cfgC6, mkForwardTester, barC6]
  have htp : tpTriggered cfgC6 posC6 barC6.close := by
    norm_num [tpTriggered, posC6, cfgC6, mkForwardTester, barC6]
  exact ⟨⟨hpos, hpf, hsl, htp⟩,
    stop_loss_priority_over_take_profit cfgC6 stC6 barC6 posC6 hpos hpf hsl htp⟩

/-- C8: for every input bar sequence the Indicator Engine output has
exactly the same length and carries the same timestamps in the same order
(enrichment adds derived fields, never adds, drops or reorders bars). -/
theorem indicator_engine_preserves_shape (bars : List Bar) :
    (calculate_indicators bars).length = bars.length ∧
      (calculate_indicators bars).map EnrichedBar.ts = bars.map Bar.ts :=
  ⟨calculate_indicators_length bars, calculate_indicators_ts bars⟩

/-- The wins and losses partitions split every trade list exactly in two:
a trade is a win when pnl_pct > 0 and a loss when pnl_pct ≤ 0. -/
lemma winsOf_add_lossesOf (trades : List Trade) :
    (winsOf trades).length + (lossesOf trades).length = trades.length := by
  induction trades with
  | nil => rfl
  | cons t ts ih =>
    simp only [winsOf, lossesOf, List.filter_cons] at *
    by_cases h : 0 < t.pnl_pct
    · have h' : ¬ t.pnl_pct ≤ 0 := not_le.2 h
      simp only [h, h', decide_eq_true_eq, if_true, if_false, List.length_cons,
        decide_eq_false_iff_not, if_pos, if_neg]
      omega
    · have h' : t.pnl_pct ≤ 0 := not_lt.1 h
      rw [if_neg (by simpa using h), if_pos (by simpa using h')]
      simp only [List.length_cons]
      omega

/-- C10: a trade with pnl_pct exactly 0 is a loss at every public
interface: the report partitions trades into wins (pnl_pct > 0) and losses
(pnl_pct ≤ 0) which always sum to the total, a zero-PnL trade falls in the
losing partition and not the winning one, and the divergence correlation
pass annotates it WIN only for pnl_pct > 0, hence LOSS at 0. -/
theorem zero_pnl_trade_is_loss (trades : List Trade) (t : Trade) (dt : ℚ) :
    (winsOf trades).length + (lossesOf trades).length = trades.length ∧
      (t.pnl_pct = 0 → t ∈ trades → t ∈ lossesOf trades ∧ t ∉ winsOf trades) ∧
      (t.pnl_pct = 0 → trade_result t = "LOSS") ∧
      (trades.find? (fun u =>
          decide (u.entry_time ≤ dt) && decide (dt ≤ u.exit_time)) = some t →
        correlate dt trades = some (t.side, trade_result t)) := by
  refine ⟨winsOf_add_lossesOf trades, ?_, ?_, ?_⟩
  · intro h0 hmem
    constructor
    · exact List.mem_filter.2 ⟨hmem, by simp [h0]⟩
    · intro hc
      have := (List.mem_filter.1 hc).2
      simp [h0] at this
  · intro h0
    simp [trade_result, h0]
  · intro hfind
    unfold correlate
    rw [hfind]

/-- A run whose post-filter frame is nonempty returns the report built
from the final loop state. -/
lemma run_eq_report (cfg : Config) (df : List Bar) (d : Option ℕ)
    (b0 : EnrichedBar) (tl : List EnrichedBar)
    (hcons : calculate_indicators (dayFilter df d) = b0 :: tl) :
    run cfg df d = RunResult.report
      (generate_report cfg (finalState cfg df d).trades
        (finalState cfg df d).equity_curve (finalState cfg df d).capital b0.close) := by
  unfold run
  rw [hcons]
  rfl

/-- A nonempty post-filter frame gives a cons-shaped enriched frame. -/
lemma calc_cons_of_ne (df : List Bar) (d : Option ℕ) (hne : dayFilter df d ≠ []) :
    ∃ b0 tl, calculate_indicators (dayFilter df d) = b0 :: tl := by
  rcases hx : calculate_indicators (dayFilter df d) with _ | ⟨b0, tl⟩
  · exfalso
    have hlen := calculate_indicators_length (dayFilter df d)
    rw [hx] at hlen
    exact hne (List.eq_nil_of_length_eq_zero hlen.symm)
  · exact ⟨b0, tl, rfl⟩

/-- With at most 30 surviving bars the loop body never runs, so the final
state still has no trades. -/
lemma finalState_trades_nil (cfg : Config) (df : List Bar) (d : Option ℕ)
    (hle : (dayFilter df d).length ≤ 30) :
    (finalState cfg df d).trades = [] := by
  unfold finalState
  have hle2 : (calculate_indicators (dayFilter df d)).length ≤ 30 := by
    rw [calculate_indicators_length]; exact hle
  show (List.foldl (step cfg)
      (initState cfg (calculate_indicators (dayFilter df d)))
      (List.drop 30 (calculate_indicators (dayFilter df d)))).trades = []
  rw [List.drop_eq_nil_of_le hle2, List.foldl_nil]
  rcases hx : calculate_indicators (dayFilter df d) with _ | ⟨b0, tl⟩ <;> rfl

/-- C2 (amended): the source defines no EmptySeriesError.  When fewer than
31 bars survive the day filter the loop body never runs: with zero bars
the run fails with the IndexError raised by iloc[0], and with one to
thirty bars it returns normally with the zero-trade error dict -- in
neither case does an EmptySeriesError exist or surface. -/
theorem under_31_bars_run_outcome (cfg : Config) (df : List Bar) (d : Option ℕ)
    (hlt : (dayFilter df d).length < 31) :
    (dayFilter df d = [] → run cfg df d = RunResult.indexError) ∧
      (dayFilter df d ≠ [] →
        run cfg df d = RunResult.report (Report.error "Nenhum trade executado")) := by
  constructor
  · intro he
    unfold run
    rw [he]
    rfl
  · intro hne
    obtain ⟨b0, tl, hcons⟩ := calc_cons_of_ne df d hne
    have htr : (finalState cfg df d).trades = [] :=
      finalState_trades_nil cfg df d (by omega)
    rw [run_eq_report cfg df d b0 tl hcons, htr]
    rfl

/-- C2 counterexample: a concrete five-bar series (fewer than 31 bars
survive filtering) on which the run RETURNS normally with the zero-trade
dict instead of failing with an EmptySeriesError (no such error exists in
the source). -/
def dfC2 : List Bar :=
  [⟨0, 100, 50⟩, ⟨60, 100, 50⟩, ⟨120, 100, 50⟩, ⟨180, 100, 50⟩, ⟨240, 100, 50⟩]

theorem under_31_bars_returns_normally :
    run defaultConfig dfC2 none = RunResult.report (Report.error "Nenhum trade executado") := by
  have htr : (finalState defaultConfig dfC2 none).trades = [] :=
    finalState_trades_nil defaultConfig dfC2 none (by norm_num [dayFilter, dfC2])
  have hcons : ∃ b0 tl, calculate_indicators (dayFilter dfC2 none) = b0 :: tl := by
    refine calc_cons_of_ne dfC2 none ?_
    simp [dayFilter, dfC2]
  obtain ⟨b0, tl, hcons⟩ := hcons
  rw [run_eq_report defaultConfig dfC2 none b0 tl hcons, htr]
  rfl

/-- C2 witness: the amended statement instantiated on the five-bar series. -/
theorem under_31_bars_run_outcome_witness :
    (dayFilter dfC2 none).length < 31 ∧ dayFilter dfC2 none ≠ [] ∧
      run defaultConfig dfC2 none = RunResult.report (Report.error "Nenhum trade executado") := by
  have hlt : (dayFilter dfC2 none).length < 31 := by norm_num [dayFilter, dfC2]
  have hne : dayFilter dfC2 none ≠ [] := by simp [dayFilter, dfC2]
  exact ⟨hlt, hne, (under_31_bars_run_outcome defaultConfig dfC2 none hlt).2 hne⟩

/-- C1 (amended): a zero-trade run is not an exception: run returns
normally and the returned dict is explicitly marked as the no-trade case,
distinguishable from a with-trades statistics report -- but it is the
error-keyed dict (the single key is literally error), not a success-shaped
report. -/
theorem zero_trade_run_returns_error_dict (cfg : Config) (df : List Bar) (d : Option ℕ)
    (hne : dayFilter df d ≠ []) (hzero : runTrades cfg df d = []) :
    run cfg df d = RunResult.report (Report.error "Nenhum trade executado") := by
  obtain ⟨b0, tl, hcons⟩ := calc_cons_of_ne df d hne
  unfold runTrades at hzero
  rw [run_eq_report cfg df d b0 tl hcons, hzero]
  rfl

/-- C1 counterexample: a concrete zero-trade run whose returned value is
the error-keyed dict -- an error-shaped result, refuting that the
zero-trade report is success-shaped (not an error result). -/
def dfC1 : List Bar := [⟨0, 100, 50⟩]

theorem zero_trade_run_result_is_error_shaped :
    run defaultConfig dfC1 none = RunResult.report (Report.error "Nenhum trade executado") ∧
      Report.isError (Report.error "Nenhum trade executado") = true := by
  constructor
  · have htr : (finalState defaultConfig dfC1 none).trades = [] :=
      finalState_trades_nil defaultConfig dfC1 none (by norm_num [dayFilter, dfC1])
    obtain ⟨b0, tl, hcons⟩ := calc_cons_of_ne dfC1 none (by simp [dayFilter, dfC1])
    rw [run_eq_report defaultConfig dfC1 none b0 tl hcons, htr]
    rfl
  · rfl

/-- C1 witness: the amended statement instantiated on a concrete one-bar
series whose run records no trades. -/
def dfC1W : List Bar := [⟨3600, 50, 10⟩]

theorem zero_trade_run_returns_error_dict_witness :
    dayFilter dfC1W none ≠ [] ∧ runTrades defaultConfig dfC1W none = [] ∧
      run defaultConfig dfC1W none = RunResult.report (Report.error "Nenhum trade executado") := by
  have hne : dayFilter dfC1W none ≠ [] := by simp [dayFilter, dfC1W]
  have hzero : runTrades defaultConfig dfC1W none = [] := by
    unfold runTrades
    exact finalState_trades_nil defaultConfig dfC1W none (by norm_num [dayFilter, dfC1W])
  exact ⟨hne, hzero, zero_trade_run_returns_error_dict defaultConfig dfC1W none hne hzero⟩

/-- The initial loop state has no recorded trades. -/
lemma initState_trades (cfg : Config) (enr : List EnrichedBar) :
    (initState cfg enr).trades = [] := by
  cases enr <;> rfl

/-- The initial loop state has no open position. -/
lemma initState_position (cfg : Config) (enr : List EnrichedBar) :
    (initState cfg enr).position = none := by
  cases enr <;> rfl

/-- C7: on an input series whose timestamps are strictly ascending (sorted
with no duplicates), every trade produced by the Simulator has exit_time
strictly greater than entry_time: the entry bar continues past the exit
check, so a close can only happen on a strictly later bar. -/
theorem trade_exits_after_entry (cfg : Config) (df : List Bar) (d : Option ℕ)
    (hsorted : (df.map Bar.ts).Pairwise (· < ·)) :
    ∀ t ∈ runTrades cfg df d, t.entry_time < t.exit_time := by
  have hsub : List.Sublist (dayFilter df d) df := by
    rcases d with _ | n
    · exact List.Sublist.refl df
    · show (if n ≠ 0 ∧ 100 < df.length then
          df.filter (fun b => decide (maxTsOf df - (n : ℚ) * 86400 ≤ b.ts))
        else df).Sublist df
      by_cases h : n ≠ 0 ∧ 100 < df.length
      · rw [if_pos h]
        exact List.filter_sublist df
      · rw [if_neg h]
  have hsorted2 : ((dayFilter df d).map Bar.ts).Pairwise (· < ·) :=
    hsorted.sublist (hsub.map Bar.ts)
  have henr : ((calculate_indicators (dayFilter df d)).map EnrichedBar.ts).Pairwise (· < ·) := by
    rw [calculate_indicators_ts]
    exact hsorted2
  have henr2 : (calculate_indicators (dayFilter df d)).Pairwise (fun a b => a.ts < b.ts) :=
    List.pairwise_map.1 henr
  have hdrop : ((calculate_indicators (dayFilter df d)).drop 30).Pairwise
      (fun a b => a.ts < b.ts) :=
    henr2.sublist (List.drop_sublist 30 _)
  intro t ht
  refine foldl_exit_after_entry cfg
    ((calculate_indicators (dayFilter df d)).drop 30)
    (initState cfg (calculate_indicators (dayFilter df d))) hdrop ?_ ?_ t ht
  · intro u hu
    rw [initState_trades] at hu
    exact absurd hu (List.not_mem_nil u)
  · intro p hp
    rw [initState_position] at hp
    exact absurd hp (by simp)

/-- C9: an open position can only close on a bar that passes all three
filters (trading hour, minimum quote volume, expanding Bollinger bands):
every recorded trade's exit_time is the timestamp of some processed bar on
which all three filters held, since rejected bars skip the exit logic by
continue. -/
theorem exits_only_on_filter_passing_bars (cfg : Config) (df : List Bar) (d : Option ℕ) :
    ∀ t ∈ runTrades cfg df d,
      ∃ b ∈ (calculate_indicators (dayFilter df d)).drop 30,
        passesFilters cfg b = true ∧ t.exit_time = b.ts := by
  intro t ht
  rcases foldl_trades_from cfg ((calculate_indicators (dayFilter df d)).drop 30)
      (initState cfg (calculate_indicators (dayFilter df d))) t ht with hmem | hex
  · rw [initState_trades] at hmem
    exact absurd hmem (List.not_mem_nil t)
  · exact hex

/-- Concrete run for the C7 and C9 witnesses: a flat then gently declining
series with a sharp jump at bar 30 and a crash at bar 31, paced one bar a
minute inside the all-day session.  Bar 30 fires the LONG entry (bullish
MACD cross, close above ema6, ema7 above ema21, expanding bands) and bar
31 crashes through the stop. -/
def cfgT : Config := mkForwardTester 40 0 (4 / 5) (3 / 2) 0 (some [(0, 24)])

def dfT : List Bar :=
  [⟨0, 100, 50⟩, ⟨60, 100, 50⟩, ⟨120, 100, 50⟩, ⟨180, 100, 50⟩, ⟨240, 100, 50⟩,
   ⟨300, 100, 50⟩, ⟨360, 100, 50⟩, ⟨420, 100, 50⟩, ⟨480, 100, 50⟩, ⟨540, 100, 50⟩,
   ⟨600, 100, 50⟩, ⟨660, 999/10, 50⟩, ⟨720, 998/10, 50⟩, ⟨780, 997/10, 50⟩,
   ⟨840, 996/10, 50⟩, ⟨900, 995/10, 50⟩, ⟨960, 994/10, 50⟩, ⟨1020, 993/10, 50⟩,
   ⟨1080, 992/10, 50⟩, ⟨1140, 991/10, 50⟩, ⟨1200, 99, 50⟩, ⟨1260, 989/10, 50⟩,
   ⟨1320, 988/10, 50⟩, ⟨1380, 987/10, 50⟩, ⟨1440, 986/10, 50⟩, ⟨1500, 985/10, 50⟩,
   ⟨1560, 984/10, 50⟩, ⟨1620, 983/10, 50⟩, ⟨1680, 982/10, 50⟩, ⟨1740, 981/10, 50⟩,
   ⟨1800, 120, 50⟩, ⟨1860, 90, 50⟩]

/-- The single trade the run on dfT records: LONG at 120 on bar 30, stopped
out at 90 on bar 31, PnL -25 percent. -/
def tradeT : Trade :=
  ⟨Side.LONG, 120, 90, -1200, -25, ExitReason.STOP_LOSS, 1800, 1860, 1⟩

lemma initState_dfT :
    initState cfgT (calculate_indicators dfT) = ⟨none, 4000, [], [(0, 4000)]⟩ := by
  rw [show initState cfgT (calculate_indicators dfT) =
      ⟨none, cfgT.position_size * 100, [], [(0, cfgT.position_size * 100)]⟩ from rfl]
  norm_num [cfgT, mkForwardTester]

set_option maxHeartbeats 2000000 in
lemma step_dfT_30 :
    step cfgT ⟨none, 4000, [], [(0, 4000)]⟩ (enrichRow (closes dfT) 30 ⟨1800, 120, 50⟩) =
      ⟨some ⟨Side.LONG, 120, 1800⟩, 4000, [], [(0, 4000)]⟩ := by
  norm_num [step, enrichRow, is_trading_hour, hourOf, cfgT, mkForwardTester, dfT, closes,
    macdBullishAt, macdBearishAt, macdDiffAt, macdAt, macdSignalAt, ewmAt,
    bbExpandingAt, bbVarAt, rollVarAt, rollMeanAt, widthCoefAt, sqrtMulGT, sqrtSign,
    rsiAt, rsAt, gainRollAt, lossRollAt, gainAt, lossAt, deltaAt, List.range_succ]

set_option maxHeartbeats 2000000 in
lemma step_dfT_31 :
    step cfgT ⟨some ⟨Side.LONG, 120, 1800⟩, 4000, [], [(0, 4000)]⟩
        (enrichRow (closes dfT) 31 ⟨1860, 90, 50⟩) =
      ⟨none, 2800, [tradeT], [(0, 4000), (1860, 2800)]⟩ := by
  norm_num [step, enrichRow, is_trading_hour, hourOf, cfgT, mkForwardTester, dfT, closes,
    exitDecision, pnlUsdt, mkTrade, tradeT,
    macdBullishAt, macdBearishAt, macdDiffAt, macdAt, macdSignalAt, ewmAt,
    bbExpandingAt, bbVarAt, rollVarAt, rollMeanAt, widthCoefAt, sqrtMulGT, sqrtSign,
    rsiAt, rsAt, gainRollAt, lossRollAt, gainAt, lossAt, deltaAt, List.range_succ]

/-- The run on dfT records exactly the one stop-loss trade (loop bars 30
and 31, evaluated one step at a time). -/
lemma runTrades_dfT : runTrades cfgT dfT none = [tradeT] := by
  have hchain : runTrades cfgT dfT none =
      (step cfgT (step cfgT (initState cfgT (calculate_indicators dfT))
          (enrichRow (closes dfT) 30 ⟨1800, 120, 50⟩))
        (enrichRow (closes dfT) 31 ⟨1860, 90, 50⟩)).trades := rfl
  rw [hchain, initState_dfT, step_dfT_30, step_dfT_31]

set_option maxHeartbeats 2000000 in
lemma dfT_sorted : (dfT.map Bar.ts).Pairwise (· < ·) := by
  rw [List.chain'_iff_pairwise.symm]
  norm_num [dfT, List.chain'_cons]

/-- C7 witness: the strictly ascending 32-bar series dfT, whose run
records one trade, and every recorded trade exits strictly after it
enters. -/
theorem trade_exits_after_entry_witness :
    (dfT.map Bar.ts).Pairwise (· < ·) ∧ runTrades cfgT dfT none = [tradeT] ∧
      ∀ t ∈ runTrades cfgT dfT none, t.entry_time < t.exit_time :=
  ⟨dfT_sorted, runTrades_dfT, trade_exits_after_entry cfgT dfT none dfT_sorted⟩

/-- C9 witness: the concrete stop-loss trade of the dfT run closes on a
processed bar that passes all three filters and stamps its timestamp as
the exit_time. -/
theorem exits_only_on_filter_passing_bars_witness :
    tradeT ∈ runTrades cfgT dfT none ∧
      ∃ b ∈ (calculate_indicators (dayFilter dfT none)).drop 30,
        passesFilters cfgT b = true ∧ tradeT.exit_time = b.ts := by
  have hmem : tradeT ∈ runTrades cfgT dfT none := by
    rw [runTrades_dfT]
    exact List.mem_singleton_self tradeT
  exact ⟨hmem, exits_only_on_filter_passing_bars cfgT dfT none tradeT hmem⟩

/-- C3 (amended): in the Indicator Engine, whenever the 14-period rolling
average loss at a bar is exactly 0, the RSI produced for that bar is 0,
not 100: the guard replaces the zero divisor with NaN, the division and
the RSI formula propagate NaN, and the final fillna(0) turns it into 0. -/
theorem rsi_is_zero_when_avg_loss_zero (bars : List Bar) (i : ℕ) (e : EnrichedBar)
    (hget : (calculate_indicators bars)[i]? = some e)
    (hloss : lossRollAt (closes bars) i = some 0) :
    e.rsi = 0 := by
  have hrsi : e.rsi = rsiAt (closes bars) i := by
    unfold calculate_indicators at hget
    rw [List.getElem?_map, List.getElem?_enum] at hget
    rcases hx : bars[i]? with _ | b
    · rw [hx] at hget
      simp at hget
    · rw [hx] at hget
      simp only [Option.map_some', Option.some.injEq] at hget
      rw [← hget]
      rfl
  rw [hrsi]
  have hwarm : ¬ (i + 1 < 14) := by
    intro hc
    unfold lossRollAt rollMeanAt at hloss
    rw [if_pos hc] at hloss
    exact Option.noConfusion hloss
  have hgain : ∃ g, gainRollAt (closes bars) i = some g := by
    unfold gainRollAt rollMeanAt
    rw [if_neg hwarm]
    exact ⟨_, rfl⟩
  obtain ⟨g, hg⟩ := hgain
  unfold rsiAt rsAt
  rw [hg, hloss]
  rfl

/-- C3 counterexample: fifteen strictly rising closes make every rolling
loss cell 0; at index 13 the rolling average loss is 0 yet the produced
RSI is 0, not the claimed 100. -/
def barsC3 : List Bar :=
  [⟨0, 1, 1⟩, ⟨60, 2, 1⟩, ⟨120, 3, 1⟩, ⟨180, 4, 1⟩, ⟨240, 5, 1⟩,
   ⟨300, 6, 1⟩, ⟨360, 7, 1⟩, ⟨420, 8, 1⟩, ⟨480, 9, 1⟩, ⟨540, 10, 1⟩,
   ⟨600, 11, 1⟩, ⟨660, 12, 1⟩, ⟨720, 13, 1⟩, ⟨780, 14, 1⟩, ⟨840, 15, 1⟩]

theorem rsi_at_zero_avg_loss_is_not_100 :
    lossRollAt (closes barsC3) 13 = some 0 ∧
      ((calculate_indicators barsC3)[13]?).map EnrichedBar.rsi = some 0 ∧
      ((calculate_indicators barsC3)[13]?).map EnrichedBar.rsi ≠ some 100 := by
  have hloss : lossRollAt (closes barsC3) 13 = some 0 := by
    norm_num [lossRollAt, rollMeanAt, lossAt, deltaAt, closes, barsC3, List.range_succ]
  have hrsi : ((calculate_indicators barsC3)[13]?).map EnrichedBar.rsi = some 0 := by
    unfold calculate_indicators
    rw [List.getElem?_map, List.getElem?_enum]
    rw [show barsC3[13]? = some ⟨780, 14, 1⟩ from rfl]
    simp only [Option.map_some']
    show some (rsiAt (closes barsC3) 13) = some 0
    norm_num [rsiAt, rsAt, gainRollAt, lossRollAt, rollMeanAt, gainAt, lossAt, deltaAt,
      closes, barsC3, List.range_succ]
  refine ⟨hloss, hrsi, ?_⟩
  rw [hrsi]
  simp only [ne_eq, Option.some.injEq]
  norm_num

/-- C3 witness: fourteen constant closes (no losses at all) put the
rolling average loss at index 13 at exactly 0, and the enrichment row
there carries rsi = 0. -/
def barsC3W : List Bar :=
  [⟨0, 7, 1⟩, ⟨60, 7, 1⟩, ⟨120, 7, 1⟩, ⟨180, 7, 1⟩, ⟨240, 7, 1⟩,
   ⟨300, 7, 1⟩, ⟨360, 7, 1⟩, ⟨420, 7, 1⟩, ⟨480, 7, 1⟩, ⟨540, 7, 1⟩,
   ⟨600, 7, 1⟩, ⟨660, 7, 1⟩, ⟨720, 7, 1⟩, ⟨780, 7, 1⟩]

def eC3W : EnrichedBar := enrichRow (closes barsC3W) 13 ⟨780, 7, 1⟩

theorem rsi_is_zero_when_avg_loss_zero_witness :
    (calculate_indicators barsC3W)[13]? = some eC3W ∧
      lossRollAt (closes barsC3W) 13 = some 0 ∧ eC3W.rsi = 0 := by
  have hget : (calculate_indicators barsC3W)[13]? = some eC3W := rfl
  have hloss : lossRollAt (closes barsC3W) 13 = some 0 := by
    norm_num [lossRollAt, rollMeanAt, lossAt, deltaAt, closes, barsC3W, List.range_succ]
  exact ⟨hget, hloss,
    rsi_is_zero_when_avg_loss_zero barsC3W 13 eC3W hget hloss⟩

/-- C4 (amended): for every nonempty trade list the report's
profit_factor is 0 when there is no losing trade, and equals the absolute
ratio of summed winning PnL% to summed losing PnL% when at least one
losing trade exists -- which is itself 0 whenever there is no winning
trade, so profit_factor = 0 does not imply the absence of losses. -/
theorem profit_factor_formula (cfg : Config) (trades : List Trade)
    (equity : List (ℚ × ℚ)) (fc ip : ℚ) (hne : trades ≠ []) :
    ((lossesOf trades).length = 0 →
        (Report.getStats (generate_report cfg trades equity fc ip)).map
          ReportStats.profit_factor = some 0) ∧
      (0 < (lossesOf trades).length →
        (Report.getStats (generate_report cfg trades equity fc ip)).map
          ReportStats.profit_factor =
            some |pnlSum (winsOf trades) / pnlSum (lossesOf trades)|) := by
  have hie : trades.isEmpty = false := by
    rcases trades with _ | ⟨t, ts⟩
    · exact absurd rfl hne
    · rfl
  constructor
  · intro h0
    simp [generate_report, hie, Report.getStats, h0]
  · intro hpos
    simp [generate_report, hie, Report.getStats, Nat.pos_iff_ne_zero.1 hpos, hpos]

/-- C4 counterexample: a single losing trade (PnL% = -5) and no winning
trade yields profit_factor = 0 with one losing trade present, refuting
that profit_factor = 0 happens only when no losing trade exists. -/
def tC4 : Trade :=
  ⟨Side.LONG, 100, 95, -200, -5, ExitReason.STOP_LOSS, 0, 60, 1⟩

theorem profit_factor_zero_with_a_losing_trade :
    (Report.getStats (generate_report defaultConfig [tC4] [(0, 4000)] 3800 100)).map
        ReportStats.profit_factor = some 0 ∧
      (lossesOf [tC4]).length = 1 := by
  constructor
  · norm_num [generate_report, Report.getStats, winsOf, lossesOf, pnlSum, tC4,
      List.filter_cons]
  · norm_num [lossesOf, tC4, List.filter_cons]

/-- C4 witness: a two-trade list with one win (+3) and one loss (-2):
profit_factor is the absolute ratio 3/2. -/
def tC4win : Trade :=
  ⟨Side.LONG, 100, 103, 120, 3, ExitReason.TAKE_PROFIT, 0, 60, 1⟩

def tC4loss : Trade :=
  ⟨Side.SHORT, 100, 102, -80, -2, ExitReason.STOP_LOSS, 120, 180, 1⟩

theorem profit_factor_formula_witness :
    ([tC4win, tC4loss] ≠ ([] : List Trade)) ∧
      0 < (lossesOf [tC4win, tC4loss]).length ∧
      (Report.getStats (generate_report defaultConfig [tC4win, tC4loss]
          [(0, 4000)] 4040 100)).map ReportStats.profit_factor = some (3 / 2) := by
  have hne : [tC4win, tC4loss] ≠ ([] : List Trade) := by simp
  have hpos : 0 < (lossesOf [tC4win, tC4loss]).length := by
    norm_num [lossesOf, tC4win, tC4loss, List.filter_cons]
  have h := (profit_factor_formula defaultConfig [tC4win, tC4loss]
      [(0, 4000)] 4040 100 hne).2 hpos
  refine ⟨hne, hpos, ?_⟩
  rw [h]
  norm_num [winsOf, lossesOf, pnlSum, tC4win, tC4loss, List.filter_cons]

/-- C5 (amended): for a supplied positive day count the Simulator
restricts the frame to the bars within the most recent N days (measured
from the maximum timestamp, one day = 86400 seconds) ONLY when the frame
has more than 100 bars; a frame of at most 100 bars is passed through
unfiltered. -/
theorem day_filter_only_beyond_100_bars (df : List Bar) (n : ℕ) (hn : 0 < n) :
    dayFilter df (some n) =
      if 100 < df.length then
        df.filter (fun b => decide (maxTsOf df - (n : ℚ) * 86400 ≤ b.ts))
      else df := by
  have hmain : dayFilter df (some n) =
      if n ≠ 0 ∧ 100 < df.length then
        df.filter (fun b => decide (maxTsOf df - (n : ℚ) * 86400 ≤ b.ts))
      else df := rfl
  rw [hmain]
  by_cases h : 100 < df.length
  · rw [if_pos (⟨hn.ne', h⟩ : n ≠ 0 ∧ 100 < df.length), if_pos h]
  · rw [if_neg (by tauto : ¬ (n ≠ 0 ∧ 100 < df.length)), if_neg h]

/-- C5 counterexample: two bars ten days apart with day count 1: the
most-recent-1-day restriction would keep only the last bar, but the run
keeps both (the filter is skipped at or below 100 bars). -/
def dfC5 : List Bar := [⟨0, 100, 50⟩, ⟨864000, 100, 50⟩]

theorem day_filter_skipped_at_100_bars_or_fewer :
    dayFilter dfC5 (some 1) = dfC5 ∧
      dfC5.filter (fun b => decide (maxTsOf dfC5 - (1 : ℚ) * 86400 ≤ b.ts)) =
        [⟨864000, 100, 50⟩] ∧
      dfC5 ≠ [⟨864000, 100, 50⟩] := by
  refine ⟨by norm_num [dayFilter, dfC5], ?_, by simp [dfC5]⟩
  norm_num [dfC5, maxTsOf, List.filter_cons, List.max?]

/-- C5 witness: a 101-bar frame (one bar per day) with day count 1: the
frame is long enough for the restriction to engage. -/
def mkDailyBar (i : ℕ) : Bar := ⟨(i : ℚ) * 86400, 100, 50⟩

def dfC5W : List Bar := (List.range 101).map mkDailyBar

theorem day_filter_only_beyond_100_bars_witness :
    (0 < 1 ∧ 100 < dfC5W.length) ∧
      dayFilter dfC5W (some 1) =
        if 100 < dfC5W.length then
          dfC5W.filter (fun b => decide (maxTsOf dfC5W - ((1 : ℕ) : ℚ) * 86400 ≤ b.ts))
        else dfC5W := by
  refine ⟨⟨Nat.one_pos, by rw [dfC5W, List.length_map, List.length_range]; omega⟩, ?_⟩
  exact day_filter_only_beyond_100_bars dfC5W 1 Nat.one_pos

def tC10 : Trade :=
  ⟨Side.LONG, 100, 100, 0, 0, ExitReason.TAKE_PROFIT, 10, 20, 1 / 6⟩

/-- C10 witness: a concrete zero-PnL trade is counted in the losing
partition, excluded from the winning one, annotated LOSS, and an event
timestamped inside its window is correlated as (LONG, LOSS). -/
theorem zero_pnl_trade_is_loss_witness :
    tC10.pnl_pct = 0 ∧ tC10 ∈ lossesOf [tC10] ∧ tC10 ∉ winsOf [tC10] ∧
      trade_result tC10 = "LOSS" ∧ correlate 15 [tC10] = some (Side.LONG, "LOSS") := by
  obtain ⟨-, h2, h3, h4⟩ := zero_pnl_trade_is_loss [tC10] tC10 15
  have h0 : tC10.pnl_pct = 0 := rfl
  have hfind : [tC10].find? (fun u =>
      decide (u.entry_time ≤ (15 : ℚ)) && decide ((15 : ℚ) ≤ u.exit_time)) = some tC10 := by
    norm_num [List.find?, tC10]
  obtain ⟨hin, hout⟩ := h2 h0 (by simp)
  refine ⟨h0, hin, hout, h3 h0, ?_⟩
  rw [h4 hfind]
  norm_num [trade_result, tC10]

end Sol
